import Mathlib

/-!
Shallow embedding of `custom_components/gtfs_rt/sensor.py`: a Home Assistant
sensor platform that polls GTFS-realtime trip-update and vehicle-position
feeds and derives, per route and stop, an ordered list of upcoming arrivals.

Modelling conventions:
* Protobuf messages become plain structures; proto3 scalar fields that may be
  absent carry their default value (empty string, 0), exactly as the Python
  code observes them.
* Timestamps and clock readings are whole seconds, as `Int` (the code compares
  `int(stop.arrival.time) > int(time.time())` on integers).
* Python dicts that the code builds key-by-key become association lists with
  `setA` (insert-or-overwrite) and `lookupA` (`dict.get`).
* A Python exception escaping a function is `Except.error ()`; HTTP responses
  carry a `status_code` and an optional parse result (`none` models
  `ParseFromString` raising on a malformed body).
* Latitude/longitude are floats in the source but are only ever carried
  around, never computed with; they are modelled as opaque integer payloads.
-/

/-- Association-list lookup, modelling Python `dict.get(key)` (returns `none`
when the key is absent). -/
def lookupA {α : Type} : List (String × α) → String → Option α
  | [], _ => none
  | (k, v) :: rest, key => if k = key then some v else lookupA rest key

/-- Association-list insert-or-overwrite, modelling Python `dict[key] = v`. -/
def setA {α : Type} : List (String × α) → String → α → List (String × α)
  | [], key, v => [(key, v)]
  | (k, w) :: rest, key, v =>
      if k = key then (key, v) :: rest else (k, w) :: setA rest key v

/-- Map over the values of an association list, keeping keys. -/
def mapValues {α β : Type} (f : α → β) (m : List (String × α)) :
    List (String × β) :=
  m.map (fun p => (p.1, f p.2))

/-- Opaque carrier for `vehicle.position` (latitude/longitude payload; the
code never computes with the coordinates, only stores and reports them). -/
structure Position where
  latitude : Int
  longitude : Int
deriving DecidableEq, Repr

/-- GTFS-rt `TripDescriptor` as read by the code (`trip.route_id`,
`trip.trip_id`; proto3 default is the empty string). -/
structure TripDescriptor where
  route_id : String
  trip_id : String
deriving DecidableEq, Repr

/-- GTFS-rt `VehicleDescriptor` as read by the code (`vehicle.id`). -/
structure VehicleDescriptor where
  id : String
deriving DecidableEq, Repr

/-- The `vehicle` sub-message of a feed entity in the vehicle-position feed:
the fields `_get_vehicle_positions` reads. -/
structure VehiclePB where
  trip : TripDescriptor
  vehicle : VehicleDescriptor
  position : Position
  occupancy_status : Int
deriving DecidableEq, Repr

/-- GTFS-rt `arrival` stop-time event: the code reads `stop.arrival.time`. -/
structure StopTimeEvent where
  time : Int
deriving DecidableEq, Repr

/-- One `stop_time_update` entry of a trip update. -/
structure StopTimeUpdate where
  stop_id : String
  arrival : StopTimeEvent
deriving DecidableEq, Repr

/-- The `trip_update` sub-message of a feed entity: the fields
`_update_route_statuses` reads. -/
structure TripUpdatePB where
  trip : TripDescriptor
  vehicle : VehicleDescriptor
  stop_time_update : List StopTimeUpdate
deriving DecidableEq, Repr

/-- A feed entity of the trip-update feed; `trip_update = none` models
`entity.HasField('trip_update')` being false. -/
structure FeedEntityT where
  trip_update : Option TripUpdatePB
deriving DecidableEq, Repr

/-- The `OccupancyStatus` enumeration (sensor.py lines 56-65). -/
inductive OccupancyStatus where
  | EMPTY
  | MANY_SEATS_AVAILABLE
  | FEW_SEATS_AVAILABLE
  | STANDING_ROOM_ONLY
  | CRUSHED_STANDING_ROOM_ONLY
  | FULL
  | NOT_ACCEPTING_PASSENGERS
  | NO_DATA_AVAILABLE
  | NOT_BOARDABLE
deriving DecidableEq, Repr

/-- The Python enum constructor call `OccupancyStatus(code)`: `some` for codes
0-8, `none` models the `ValueError` raised for any other code. -/
def OccupancyStatus.ofCode (code : Int) : Option OccupancyStatus :=
  if code = 0 then some .EMPTY
  else if code = 1 then some .MANY_SEATS_AVAILABLE
  else if code = 2 then some .FEW_SEATS_AVAILABLE
  else if code = 3 then some .STANDING_ROOM_ONLY
  else if code = 4 then some .CRUSHED_STANDING_ROOM_ONLY
  else if code = 5 then some .FULL
  else if code = 6 then some .NOT_ACCEPTING_PASSENGERS
  else if code = 7 then some .NO_DATA_AVAILABLE
  else if code = 8 then some .NOT_BOARDABLE
  else none

/-- The `.name` attribute of the Python enum member. -/
def OccupancyStatus.name : OccupancyStatus → String
  | .EMPTY => "EMPTY"
  | .MANY_SEATS_AVAILABLE => "MANY_SEATS_AVAILABLE"
  | .FEW_SEATS_AVAILABLE => "FEW_SEATS_AVAILABLE"
  | .STANDING_ROOM_ONLY => "STANDING_ROOM_ONLY"
  | .CRUSHED_STANDING_ROOM_ONLY => "CRUSHED_STANDING_ROOM_ONLY"
  | .FULL => "FULL"
  | .NOT_ACCEPTING_PASSENGERS => "NOT_ACCEPTING_PASSENGERS"
  | .NO_DATA_AVAILABLE => "NO_DATA_AVAILABLE"
  | .NOT_BOARDABLE => "NOT_BOARDABLE"

abbrev PosMap := List (String × Position)
abbrev TripMap := List (String × String)
abbrev OccMap := List (String × String)

/-- The entity loop of `_get_vehicle_positions` (lines 230-238): skip vehicles
whose trip has no route id ("not in service"); otherwise index position by
vehicle id, vehicle id by trip id, and occupancy name by vehicle id.
`OccupancyStatus(vehicle.occupancy_status)` raising `ValueError` on an
out-of-range code aborts the whole loop (`Except.error`). -/
def vehicleLoop :
    List VehiclePB → PosMap → TripMap → OccMap →
    Except Unit (PosMap × TripMap × OccMap)
  | [], positions, vehicles_trips, occupancy =>
      .ok (positions, vehicles_trips, occupancy)
  | vehicle :: rest, positions, vehicles_trips, occupancy =>
      if vehicle.trip.route_id = "" then
        -- Vehicle is not in service
        vehicleLoop rest positions vehicles_trips occupancy
      else
        match OccupancyStatus.ofCode vehicle.occupancy_status with
        | none => .error ()
        | some status =>
            vehicleLoop rest
              (setA positions vehicle.vehicle.id vehicle.position)
              (setA vehicles_trips vehicle.trip.trip_id vehicle.vehicle.id)
              (setA occupancy vehicle.vehicle.id status.name)

/-- `_get_vehicle_positions` applied to an already-parsed vehicle feed:
returns the three maps, or an error if an in-service entity carries an
out-of-range occupancy code. -/
def getVehiclePositions (entities : List VehiclePB) :
    Except Unit (PosMap × TripMap × OccMap) :=
  vehicleLoop entities [] [] []

/-- The `StopDetails` record built per retained stop-time update
(lines 174-178): arrival time plus the looked-up position and occupancy
(`dict.get` on a possibly-`None` vehicle id). -/
structure StopDetails where
  arrival_time : Int
  position : Option Position
  occupancy : Option String
deriving DecidableEq, Repr

abbrev StopMap := List (String × List StopDetails)
abbrev Table := List (String × StopMap)

/-- Vehicle-id resolution for a trip update (lines 192-194): the explicit
`trip_update.vehicle.id` when non-empty, else the `vehicles_trips` entry for
the trip's id (which may be absent). -/
def resolveVehicleId (tu : TripUpdatePB) (vehicles_trips : TripMap) :
    Option String :=
  if tu.vehicle.id = "" then lookupA vehicles_trips tu.trip.trip_id
  else some tu.vehicle.id

/-- The body of the inner `for stop in entity.trip_update.stop_time_update`
loop (lines 198-210), acting on the route's stop map: create the stop's entry
with an empty list when absent or falsy, then append a `StopDetails` only when
`stop.arrival.time > now` (the future-only filter). -/
def stepStop (now : Int) (vehicle_positions : PosMap)
    (vehicle_occupancy : OccMap) (vehicle_id : Option String)
    (rt : StopMap) (stop : StopTimeUpdate) : StopMap :=
  let rt1 :=
    if (lookupA rt stop.stop_id).getD [] = [] then setA rt stop.stop_id []
    else rt
  if stop.arrival.time > now then
    let details : StopDetails :=
      { arrival_time := stop.arrival.time
        position := vehicle_id.bind (lookupA vehicle_positions)
        occupancy := vehicle_id.bind (lookupA vehicle_occupancy) }
    setA rt1 stop.stop_id ((lookupA rt1 stop.stop_id).getD [] ++ [details])
  else rt1

/-- The body of the outer `for entity in feed.entity` loop (lines 187-210):
entities without a `trip_update` contribute nothing; otherwise the route's
stop map is created when absent and every stop-time update is folded in. -/
def processEntity (now : Int) (vehicle_positions : PosMap)
    (vehicles_trips : TripMap) (vehicle_occupancy : OccMap)
    (departure_times : Table) (entity : FeedEntityT) : Table :=
  match entity.trip_update with
  | none => departure_times
  | some tu =>
      let route_id := tu.trip.route_id
      let vehicle_id := resolveVehicleId tu vehicles_trips
      let table1 :=
        if (lookupA departure_times route_id).isNone then
          setA departure_times route_id []
        else departure_times
      let rt := (lookupA table1 route_id).getD []
      let rt2 := tu.stop_time_update.foldl
        (stepStop now vehicle_positions vehicle_occupancy vehicle_id) rt
      setA table1 route_id rt2

/-- The unsorted `departure_times` table built by the entity loop of
`_update_route_statuses` from a parsed trip-update feed. -/
def buildDepartureTimesRaw (now : Int) (vehicle_positions : PosMap)
    (vehicles_trips : TripMap) (vehicle_occupancy : OccMap)
    (entities : List FeedEntityT) : Table :=
  entities.foldl
    (processEntity now vehicle_positions vehicles_trips vehicle_occupancy) []

/-- The sort key comparison `lambda t: t.arrival_time` (line 215); Python
`list.sort` is a stable sort, modelled by `List.mergeSort`. -/
def arrivalLe (a b : StopDetails) : Bool :=
  decide (a.arrival_time ≤ b.arrival_time)

/-- The final per-(route, stop) in-place sort of `_update_route_statuses`
(lines 212-215). -/
def sortTable (departure_times : Table) : Table :=
  mapValues (fun rt => mapValues (fun l => l.mergeSort arrivalLe) rt)
    departure_times

/-- The full table computed by `_update_route_statuses` from a parsed feed:
build the nested dict, then sort each stop's list by arrival time. -/
def updateRouteStatusesTable (now : Int) (vehicle_positions : PosMap)
    (vehicles_trips : TripMap) (vehicle_occupancy : OccMap)
    (entities : List FeedEntityT) : Table :=
  sortTable
    (buildDepartureTimesRaw now vehicle_positions vehicles_trips
      vehicle_occupancy entities)

/-- An HTTP fetch outcome: the response's status code, and the result of
`feed.ParseFromString(response.content)` (`none` when parsing raises, which
also covers transport failures). -/
structure FetchResponse (α : Type) where
  status_code : Nat
  parsed : Option (List α)
deriving DecidableEq, Repr

/-- Effect of `_update_route_statuses` (lines 180-217) on `self.info`.
A non-200 status is only logged (lines 182-183) and does not stop the method:
the body is parsed regardless. When `ParseFromString` raises, the exception
escapes before line 217, so `self.info` keeps its previous value; otherwise
the freshly built table replaces it. -/
def updateRouteStatuses (response : FetchResponse FeedEntityT)
    (vehicle_positions : PosMap) (vehicles_trips : TripMap)
    (vehicle_occupancy : OccMap) (now : Int) (info : Table) : Table :=
  match response.parsed with
  | none => info
  | some entities =>
      updateRouteStatusesTable now vehicle_positions vehicles_trips
        vehicle_occupancy entities

/-- `PublicTransportSensor._get_next_buses` (line 104):
`self.data.info.get(route, {}).get(stop, [])`. -/
def getNextBuses (info : Table) (route stop : String) : List StopDetails :=
  (lookupA ((lookupA info route).getD []) stop).getD []

/-- The module-level helper `due_in_minutes(timestamp)` (lines 67-70):
`int(diff.total_seconds() / 60)` — Python `int()` truncates toward zero,
which on whole-second clocks is `Int.tdiv`. -/
def due_in_minutes (timestamp now : Int) : Int :=
  Int.tdiv (timestamp - now) 60

/-- `PublicTransportSensor.state` (lines 106-110): minutes until the first
bus, or the placeholder sentinel `'-'` (modelled as `none`) when the stop's
arrival list is empty. -/
def sensorState (info : Table) (route stop : String) (now : Int) :
    Option Int :=
  let next_buses := getNextBuses info route stop
  match next_buses with
  | [] => none
  | b :: _ => some (due_in_minutes b.arrival_time now)

/-- Header selection in `PublicTransportData.__init__` (lines 151-162):
`api_key` (sent as `Authorization`) is checked first, then `apikey` (sent as
`apikey`), then `x_api_key` (sent as `x-api-key`); with none supplied,
`self._headers = None`. -/
def initHeaders (api_key x_api_key apikey : Option String) :
    Option (List (String × String)) :=
  match api_key with
  | some k => some [("Authorization", k)]
  | none =>
      match apikey with
      | some k => some [("apikey", k)]
      | none =>
          match x_api_key with
          | some k => some [("x-api-key", k)]
          | none => none

/-- `MIN_TIME_BETWEEN_UPDATES = datetime.timedelta(seconds=60)` (line 39),
in seconds. -/
def MIN_TIME_BETWEEN_UPDATES : Int := 60

/-- Body of `PublicTransportData.update` (lines 166-168), ignoring the
throttle: fetch vehicle positions when a vehicle-position URL is configured
(a parse failure or an out-of-range occupancy code raises, leaving `info`
unchanged), then run `_update_route_statuses`. -/
def updateBody (info : Table) (vehicle_position_url : Bool)
    (vehicle_response : FetchResponse VehiclePB)
    (trip_response : FetchResponse FeedEntityT) (now : Int) : Table :=
  if vehicle_position_url then
    match vehicle_response.parsed with
    | none => info
    | some ventities =>
        match getVehiclePositions ventities with
        | .error _ => info
        | .ok (positions, vehicles_trips, occupancy) =>
            updateRouteStatuses trip_response positions vehicles_trips
              occupancy now info
  else updateRouteStatuses trip_response [] [] [] now info

/-- Number of HTTP GETs one executed `update` body performs: the vehicle
fetch (when configured), plus the trip-update fetch, which is only reached
when the vehicle step did not raise. -/
def fetchCountOf (vehicle_position_url : Bool)
    (vehicle_response : FetchResponse VehiclePB) : Nat :=
  if vehicle_position_url then
    match vehicle_response.parsed with
    | none => 1
    | some ventities =>
        match getVehiclePositions ventities with
        | .error _ => 1
        | .ok _ => 2
  else 1

/-- Observable state of a `PublicTransportData` instance: the stored table,
the throttle's last-attempt timestamp, and a fetch counter (instrumentation
for the rate-limit property). -/
structure PTState where
  info : Table
  last_attempt : Option Int
  fetch_count : Nat
deriving DecidableEq, Repr

/-- Modelled from the spec: the `@Throttle(MIN_TIME_BETWEEN_UPDATES)`
decorator on `update` comes from the host platform
(`homeassistant.util.Throttle`) and is not part of this repository's sources.
Per the spec, a call within the configured minimum interval of the previous
successful-or-attempted call is a no-op that returns immediately without
re-fetching or recomputing; the guard stores a last-attempt timestamp and
compares it against the minimum interval before performing any fetch. -/
def throttledUpdate (st : PTState) (now : Int) (vehicle_position_url : Bool)
    (vehicle_response : FetchResponse VehiclePB)
    (trip_response : FetchResponse FeedEntityT) : PTState :=
  match st.last_attempt with
  | some t =>
      if now - t < MIN_TIME_BETWEEN_UPDATES then
        { st with last_attempt := some now }
      else
        { info := updateBody st.info vehicle_position_url vehicle_response
            trip_response now
          last_attempt := some now
          fetch_count := st.fetch_count +
            fetchCountOf vehicle_position_url vehicle_response }
  | none =>
      { info := updateBody st.info vehicle_position_url vehicle_response
          trip_response now
        last_attempt := some now
        fetch_count := st.fetch_count +
          fetchCountOf vehicle_position_url vehicle_response }

/-- The last in-service vehicle entity (in feed order) carrying the given
vehicle id, used to state the last-write-wins property of the dict builds. -/
def lastInServiceVehicle (entities : List VehiclePB) (vid : String) :
    Option VehiclePB :=
  entities.reverse.find?
    (fun e => !(e.trip.route_id == "") && (e.vehicle.id == vid))

/-- The last in-service vehicle entity (in feed order) for a given trip id. -/
def lastInServiceTrip (entities : List VehiclePB) (tid : String) :
    Option VehiclePB :=
  entities.reverse.find?
    (fun e => !(e.trip.route_id == "") && (e.trip.trip_id == tid))

/-! ## Association-list lemmas -/

theorem lookupA_setA_self {α : Type} (m : List (String × α)) (k : String)
    (v : α) : lookupA (setA m k v) k = some v := by
  induction m with
  | nil => simp [setA, lookupA]
  | cons hd tl ih =>
      obtain ⟨k0, v0⟩ := hd
      by_cases hk : k0 = k
      · simp [setA, hk, lookupA]
      · simp [setA, hk, lookupA, ih]

theorem lookupA_setA_ne {α : Type} (m : List (String × α)) {k kq : String}
    (v : α) (h : kq ≠ k) : lookupA (setA m k v) kq = lookupA m kq := by
  induction m with
  | nil =>
      simp only [setA, lookupA]
      rw [if_neg (fun hc => h hc.symm)]
  | cons hd tl ih =>
      obtain ⟨k0, v0⟩ := hd
      by_cases hk : k0 = k
      · have hne : ¬ k0 = kq := fun hc => h (hc ▸ hk)
        have hne2 : ¬ k = kq := fun hc => h hc.symm
        simp only [setA, if_pos hk, lookupA, if_neg hne, if_neg hne2]
      · by_cases hq : k0 = kq
        · simp only [setA, if_neg hk, lookupA, if_pos hq]
        · simp only [setA, if_neg hk, lookupA, if_neg hq, ih]

theorem mem_setA {α : Type} {m : List (String × α)} {k : String} {v : α}
    {x : String × α} (hx : x ∈ setA m k v) : x = (k, v) ∨ x ∈ m := by
  induction m with
  | nil => simpa [setA] using hx
  | cons hd tl ih =>
      obtain ⟨k0, v0⟩ := hd
      by_cases hk : k0 = k
      · simp only [setA, if_pos hk, List.mem_cons] at hx
        rcases hx with h | h
        · exact Or.inl h
        · exact Or.inr (List.mem_cons_of_mem _ h)
      · simp only [setA, if_neg hk, List.mem_cons] at hx
        rcases hx with h | h
        · exact Or.inr (by simp [h])
        · rcases ih h with h1 | h1
          · exact Or.inl h1
          · exact Or.inr (List.mem_cons_of_mem _ h1)

theorem lookupA_mem {α : Type} {m : List (String × α)} {k : String} {v : α}
    (h : lookupA m k = some v) : (k, v) ∈ m := by
  induction m with
  | nil => simp [lookupA] at h
  | cons hd tl ih =>
      obtain ⟨k0, v0⟩ := hd
      by_cases hk : k0 = k
      · subst hk
        simp [lookupA] at h
        subst h
        exact List.mem_cons_self _ _
      · simp only [lookupA, if_neg hk] at h
        exact List.mem_cons_of_mem _ (ih h)

theorem lookupA_mapValues {α β : Type} (f : α → β) (m : List (String × α))
    (k : String) : lookupA (mapValues f m) k = (lookupA m k).map f := by
  induction m with
  | nil => simp [mapValues, lookupA]
  | cons hd tl ih =>
      obtain ⟨k0, v0⟩ := hd
      by_cases hk : k0 = k
      · simp [mapValues, lookupA, hk]
      · simpa [mapValues, lookupA, hk] using ih

/-! ## Invariant machinery: properties of every StopDetails in a table -/

/-- Every `StopDetails` stored in a stop map satisfies `Q`. -/
def StopMapProp (Q : StopDetails → Prop) (rt : StopMap) : Prop :=
  ∀ s l, (s, l) ∈ rt → ∀ d ∈ l, Q d

/-- Every `StopDetails` stored in a table satisfies `Q`. -/
def TableProp (Q : StopDetails → Prop) (t : Table) : Prop :=
  ∀ r rt, (r, rt) ∈ t → StopMapProp Q rt

theorem stopMapProp_setA {Q : StopDetails → Prop} {rt : StopMap}
    (hrt : StopMapProp Q rt) {sid : String} {l : List StopDetails}
    (hl : ∀ d ∈ l, Q d) : StopMapProp Q (setA rt sid l) := by
  intro s l2 hmem d hd
  rcases mem_setA hmem with h | h
  · cases h; exact hl d hd
  · exact hrt s l2 h d hd

theorem stepStop_prop {Q : StopDetails → Prop} {now : Int}
    {vehicle_positions : PosMap} {vehicle_occupancy : OccMap}
    {vehicle_id : Option String} {rt : StopMap} {stop : StopTimeUpdate}
    (hrt : StopMapProp Q rt)
    (hnew : now < stop.arrival.time →
      Q { arrival_time := stop.arrival.time
          position := vehicle_id.bind (lookupA vehicle_positions)
          occupancy := vehicle_id.bind (lookupA vehicle_occupancy) }) :
    StopMapProp Q
      (stepStop now vehicle_positions vehicle_occupancy vehicle_id rt stop) := by
  unfold stepStop
  have hrt1 : StopMapProp Q
      (if (lookupA rt stop.stop_id).getD [] = [] then setA rt stop.stop_id []
       else rt) := by
    split
    · exact stopMapProp_setA hrt (by intro d hd; simp at hd)
    · exact hrt
  set rt1 := (if (lookupA rt stop.stop_id).getD [] = [] then
      setA rt stop.stop_id [] else rt) with hrt1def
  split
  · rename_i hfut
    apply stopMapProp_setA hrt1
    intro d hd
    rcases List.mem_append.mp hd with h | h
    · rcases hcur : lookupA rt1 stop.stop_id with _ | l0
      · rw [hcur] at h; simp at h
      · rw [hcur] at h
        exact hrt1 stop.stop_id l0 (lookupA_mem hcur) d h
    · simp only [List.mem_singleton] at h
      subst h
      exact hnew (by omega)
  · exact hrt1

theorem foldl_stepStop_prop {Q : StopDetails → Prop} {now : Int}
    {vehicle_positions : PosMap} {vehicle_occupancy : OccMap}
    {vehicle_id : Option String} :
    ∀ (stops : List StopTimeUpdate) (rt : StopMap),
    StopMapProp Q rt →
    (∀ stop ∈ stops, now < stop.arrival.time →
      Q { arrival_time := stop.arrival.time
          position := vehicle_id.bind (lookupA vehicle_positions)
          occupancy := vehicle_id.bind (lookupA vehicle_occupancy) }) →
    StopMapProp Q
      (stops.foldl (stepStop now vehicle_positions vehicle_occupancy vehicle_id)
        rt) := by
  intro stops
  induction stops with
  | nil => intro rt hrt _; simpa using hrt
  | cons hd tl ih =>
      intro rt hrt hstops
      simp only [List.foldl_cons]
      exact ih _ (stepStop_prop hrt (hstops hd (by simp)))
        (fun stop hs => hstops stop (by simp [hs]))

theorem processEntity_prop {Q : StopDetails → Prop} {now : Int}
    {vehicle_positions : PosMap} {vehicles_trips : TripMap}
    {vehicle_occupancy : OccMap} {t : Table} {entity : FeedEntityT}
    (ht : TableProp Q t)
    (he : ∀ tu, entity.trip_update = some tu →
      ∀ stop ∈ tu.stop_time_update, now < stop.arrival.time →
      Q { arrival_time := stop.arrival.time
          position := (resolveVehicleId tu vehicles_trips).bind
            (lookupA vehicle_positions)
          occupancy := (resolveVehicleId tu vehicles_trips).bind
            (lookupA vehicle_occupancy) }) :
    TableProp Q
      (processEntity now vehicle_positions vehicles_trips vehicle_occupancy t
        entity) := by
  unfold processEntity
  cases htu : entity.trip_update with
  | none => exact ht
  | some tu =>
      have ht1 : TableProp Q
          (if (lookupA t tu.trip.route_id).isNone then
            setA t tu.trip.route_id [] else t) := by
        split
        · intro r rt hmem
          rcases mem_setA hmem with h | h
          · cases h; intro s l hl; simp at hl
          · exact ht r rt h
        · exact ht
      set t1 := (if (lookupA t tu.trip.route_id).isNone then
          setA t tu.trip.route_id [] else t) with ht1def
      have hrt : StopMapProp Q ((lookupA t1 tu.trip.route_id).getD []) := by
        rcases hcur : lookupA t1 tu.trip.route_id with _ | rt0
        · intro s l hl; simp at hl
        · exact ht1 tu.trip.route_id rt0 (lookupA_mem hcur)
      intro r rt hmem
      rcases mem_setA hmem with h | h
      · cases h
        exact foldl_stepStop_prop tu.stop_time_update _ hrt (he tu htu)
      · exact ht1 r rt h

theorem buildDepartureTimesRaw_prop {Q : StopDetails → Prop} {now : Int}
    {vehicle_positions : PosMap} {vehicles_trips : TripMap}
    {vehicle_occupancy : OccMap} (entities : List FeedEntityT)
    (hent : ∀ e ∈ entities, ∀ tu, e.trip_update = some tu →
      ∀ stop ∈ tu.stop_time_update, now < stop.arrival.time →
      Q { arrival_time := stop.arrival.time
          position := (resolveVehicleId tu vehicles_trips).bind
            (lookupA vehicle_positions)
          occupancy := (resolveVehicleId tu vehicles_trips).bind
            (lookupA vehicle_occupancy) }) :
    TableProp Q
      (buildDepartureTimesRaw now vehicle_positions vehicles_trips
        vehicle_occupancy entities) := by
  unfold buildDepartureTimesRaw
  have hgen : ∀ (es : List FeedEntityT) (t : Table), TableProp Q t →
      (∀ e ∈ es, ∀ tu, e.trip_update = some tu →
        ∀ stop ∈ tu.stop_time_update, now < stop.arrival.time →
        Q { arrival_time := stop.arrival.time
            position := (resolveVehicleId tu vehicles_trips).bind
              (lookupA vehicle_positions)
            occupancy := (resolveVehicleId tu vehicles_trips).bind
              (lookupA vehicle_occupancy) }) →
      TableProp Q (es.foldl
        (processEntity now vehicle_positions vehicles_trips vehicle_occupancy)
        t) := by
    intro es
    induction es with
    | nil => intro t ht _; simpa using ht
    | cons hd tl ih =>
        intro t ht hes
        simp only [List.foldl_cons]
        exact ih _ (processEntity_prop ht (hes hd (by simp)))
          (fun e hel => hes e (by simp [hel]))
  exact hgen entities [] (by intro r rt h; simp at h) hent

theorem sortTable_prop {Q : StopDetails → Prop} {t : Table}
    (ht : TableProp Q t) : TableProp Q (sortTable t) := by
  intro r rt hmem
  unfold sortTable mapValues at hmem
  simp only [List.mem_map] at hmem
  obtain ⟨⟨r0, rt0⟩, hr0, heq⟩ := hmem
  cases heq
  intro s l hl d hd
  simp only [List.mem_map] at hl
  obtain ⟨⟨s0, l0⟩, hs0, heq2⟩ := hl
  cases heq2
  exact ht r0 rt0 hr0 s0 l0 hs0 d (List.mem_mergeSort.mp hd)

theorem getNextBuses_prop {Q : StopDetails → Prop} {t : Table}
    {route stop : String} (ht : TableProp Q t) :
    ∀ d ∈ getNextBuses t route stop, Q d := by
  intro d hd
  unfold getNextBuses at hd
  rcases hr : lookupA t route with _ | rt
  · rw [hr] at hd; simp [lookupA] at hd
  · rw [hr] at hd
    simp only [Option.getD_some] at hd
    rcases hs : lookupA rt stop with _ | l
    · rw [hs] at hd; simp at hd
    · rw [hs] at hd
      simp only [Option.getD_some] at hd
      exact ht route rt (lookupA_mem hr) stop l (lookupA_mem hs) d hd

/-- Lookup through `sortTable`: the sorted table's list for (route, stop) is
the merge sort of the raw table's list. -/
theorem getNextBuses_sortTable (t : Table) (route stop : String) :
    getNextBuses (sortTable t) route stop =
      (getNextBuses t route stop).mergeSort arrivalLe := by
  unfold getNextBuses sortTable
  rw [lookupA_mapValues]
  rcases hr : lookupA t route with _ | rt
  · simp [lookupA, List.mergeSort_nil]
  · simp only [Option.map_some', Option.getD_some]
    rw [lookupA_mapValues]
    rcases hs : lookupA rt stop with _ | l
    · simp [List.mergeSort_nil]
    · simp

/-! ## C3: future-only filter -/

/-- C3: every Arrival present in the PredictionTable produced from a
trip-update feed at projection time `now` has `arrival_time` strictly greater
than `now`: stop-time updates with `arrival.time ≤ now` are discarded and
never inserted, so `get()` only ever returns future arrivals. -/
theorem projected_arrivals_future (now : Int) (vehicle_positions : PosMap)
    (vehicles_trips : TripMap) (vehicle_occupancy : OccMap)
    (entities : List FeedEntityT) :
    TableProp (fun d => now < d.arrival_time)
      (updateRouteStatusesTable now vehicle_positions vehicles_trips
        vehicle_occupancy entities) ∧
    ∀ route stop d,
      d ∈ getNextBuses
        (updateRouteStatusesTable now vehicle_positions vehicles_trips
          vehicle_occupancy entities) route stop →
      now < d.arrival_time := by
  have ht : TableProp (fun d => now < d.arrival_time)
      (updateRouteStatusesTable now vehicle_positions vehicles_trips
        vehicle_occupancy entities) := by
    unfold updateRouteStatusesTable
    exact sortTable_prop
      (buildDepartureTimesRaw_prop entities
        (fun e he tu htu stop hs hfut => hfut))
  exact ⟨ht, fun route stop d hd => getNextBuses_prop ht d hd⟩

/-- Witness for C3 at a concrete feed: one trip update with a future stop-time
update (arrival 200, now 100); the surviving arrival is indeed future. -/
theorem projected_arrivals_future_witness : (100 : Int) < 200 :=
  (projected_arrivals_future 100 [] [] []
      [⟨some ⟨⟨"R1", "T1"⟩, ⟨""⟩, [⟨"S1", ⟨200⟩⟩, ⟨"S1", ⟨50⟩⟩]⟩⟩]).2
    "R1" "S1" ⟨200, none, none⟩ (by
      show _ ∈ getNextBuses (sortTable (buildDepartureTimesRaw _ _ _ _ _)) _ _
      rw [getNextBuses_sortTable]
      exact List.mem_mergeSort.mpr (by decide))

/-! ## C4: sortedness and stability -/

theorem arrivalLe_trans (a b c : StopDetails) (hab : arrivalLe a b = true)
    (hbc : arrivalLe b c = true) : arrivalLe a c = true := by
  simp only [arrivalLe, decide_eq_true_eq] at *
  omega

theorem arrivalLe_total (a b : StopDetails) :
    (arrivalLe a b || arrivalLe b a) = true := by
  simp only [arrivalLe, Bool.or_eq_true, decide_eq_true_eq]
  omega

/-- Stable-sort characterization of `List.mergeSort arrivalLe`: elements with
any fixed arrival time keep their original relative order. -/
theorem mergeSort_filter_key (l : List StopDetails) (k : Int) :
    (l.mergeSort arrivalLe).filter (fun d => d.arrival_time == k) =
      l.filter (fun d => d.arrival_time == k) := by
  have hpair : List.Pairwise (fun a b => arrivalLe a b = true)
      (l.filter (fun d => d.arrival_time == k)) := by
    apply List.pairwise_of_forall_mem_list
    intro a ha b hb
    have ha2 := List.of_mem_filter ha
    have hb2 := List.of_mem_filter hb
    simp only [beq_iff_eq] at ha2 hb2
    simp [arrivalLe, ha2, hb2]
  have hst : (l.filter (fun d => d.arrival_time == k)).Sublist
      (l.mergeSort arrivalLe) :=
    List.mergeSort_stable arrivalLe_trans arrivalLe_total hpair
      (List.filter_sublist l)
  have hsub2 : (l.filter (fun d => d.arrival_time == k)).Sublist
      ((l.mergeSort arrivalLe).filter (fun d => d.arrival_time == k)) := by
    have := List.Sublist.filter (fun d => d.arrival_time == k) hst
    rwa [List.filter_filter, (by
      funext d
      cases hdk : (d.arrival_time == k) <;> simp [hdk] :
      (fun d : StopDetails => (d.arrival_time == k) && (d.arrival_time == k))
        = fun d => d.arrival_time == k)] at this
  have hperm : ((l.mergeSort arrivalLe).filter
      (fun d => d.arrival_time == k)).Perm
        (l.filter (fun d => d.arrival_time == k)) :=
    List.Perm.filter _ (List.mergeSort_perm l arrivalLe)
  exact (List.Sublist.eq_of_length hsub2 hperm.length_eq.symm).symm

/-- C4: in every table produced by a successful refresh, each (route, stop)
sequence is sorted in non-decreasing `arrival_time` order, is a permutation
of the unsorted (feed-order) sequence, and elements with equal arrival times
keep their original feed order (stable sort). -/
theorem stop_sequences_sorted_stable (now : Int) (vehicle_positions : PosMap)
    (vehicles_trips : TripMap) (vehicle_occupancy : OccMap)
    (entities : List FeedEntityT) (route stop : String) :
    List.Pairwise (fun a b : StopDetails => a.arrival_time ≤ b.arrival_time)
      (getNextBuses
        (updateRouteStatusesTable now vehicle_positions vehicles_trips
          vehicle_occupancy entities) route stop) ∧
    (getNextBuses
      (updateRouteStatusesTable now vehicle_positions vehicles_trips
        vehicle_occupancy entities) route stop).Perm
      (getNextBuses
        (buildDepartureTimesRaw now vehicle_positions vehicles_trips
          vehicle_occupancy entities) route stop) ∧
    ∀ k : Int,
      (getNextBuses
        (updateRouteStatusesTable now vehicle_positions vehicles_trips
          vehicle_occupancy entities) route stop).filter
          (fun d => d.arrival_time == k) =
      (getNextBuses
        (buildDepartureTimesRaw now vehicle_positions vehicles_trips
          vehicle_occupancy entities) route stop).filter
          (fun d => d.arrival_time == k) := by
  unfold updateRouteStatusesTable
  rw [getNextBuses_sortTable]
  refine ⟨?_, List.mergeSort_perm _ _, fun k => mergeSort_filter_key _ k⟩
  have := List.sorted_mergeSort arrivalLe_trans arrivalLe_total
    (getNextBuses
      (buildDepartureTimesRaw now vehicle_positions vehicles_trips
        vehicle_occupancy entities) route stop)
  exact this.imp (fun h => by simpa [arrivalLe] using h)

/-! ## C5: vehicle-id resolution order -/

/-- C5: for a trip-update entity, the vehicle id used to look up position and
occupancy is the explicit `trip_update.vehicle.id` when non-empty; otherwise
the `vehicles_trips` entry for the trip's id; otherwise there is no vehicle
id and every Arrival built from the trip update carries unset position and
occupancy (no error). -/
theorem vehicle_id_resolution_order (now : Int) (vehicle_positions : PosMap)
    (vehicles_trips : TripMap) (vehicle_occupancy : OccMap)
    (e : FeedEntityT) (tu : TripUpdatePB) (route stop : String)
    (d : StopDetails) (he : e.trip_update = some tu)
    (hd : d ∈ getNextBuses
      (updateRouteStatusesTable now vehicle_positions vehicles_trips
        vehicle_occupancy [e]) route stop) :
    (tu.vehicle.id ≠ "" →
      d.position = lookupA vehicle_positions tu.vehicle.id ∧
      d.occupancy = lookupA vehicle_occupancy tu.vehicle.id) ∧
    (tu.vehicle.id = "" →
      ∀ w, lookupA vehicles_trips tu.trip.trip_id = some w →
      d.position = lookupA vehicle_positions w ∧
      d.occupancy = lookupA vehicle_occupancy w) ∧
    (tu.vehicle.id = "" → lookupA vehicles_trips tu.trip.trip_id = none →
      d.position = none ∧ d.occupancy = none) := by
  have hQ : d.position =
      (resolveVehicleId tu vehicles_trips).bind (lookupA vehicle_positions) ∧
      d.occupancy =
      (resolveVehicleId tu vehicles_trips).bind (lookupA vehicle_occupancy) := by
    have ht : TableProp (fun d2 => d2.position =
        (resolveVehicleId tu vehicles_trips).bind (lookupA vehicle_positions) ∧
        d2.occupancy =
        (resolveVehicleId tu vehicles_trips).bind (lookupA vehicle_occupancy))
        (updateRouteStatusesTable now vehicle_positions vehicles_trips
          vehicle_occupancy [e]) := by
      unfold updateRouteStatusesTable
      apply sortTable_prop
      apply buildDepartureTimesRaw_prop
      intro e2 he2 tu2 htu2 stop2 hs2 hfut
      simp only [List.mem_singleton] at he2
      subst he2
      rw [he] at htu2
      injection htu2 with htu3
      subst htu3
      exact ⟨rfl, rfl⟩
    exact getNextBuses_prop ht d hd
  obtain ⟨hp, ho⟩ := hQ
  unfold resolveVehicleId at hp ho
  refine ⟨fun hne => ?_, fun hemp w hw => ?_, fun hemp hw => ?_⟩
  · rw [if_neg hne] at hp ho
    exact ⟨hp, ho⟩
  · rw [if_pos hemp, hw] at hp ho
    exact ⟨hp, ho⟩
  · rw [if_pos hemp, hw] at hp ho
    exact ⟨hp, ho⟩

/-- Witness for C5 at the spec's end-to-end scenario: a trip update with an
empty explicit vehicle id whose trip id T1 is linked to vehicle V1; the
resulting arrival carries V1's position and occupancy. -/
theorem vehicle_id_resolution_order_witness :
    (⟨200, some ⟨533, -62⟩, some "FEW_SEATS_AVAILABLE"⟩ : StopDetails).position =
      lookupA [("V1", (⟨533, -62⟩ : Position))] "V1" ∧
    (⟨200, some ⟨533, -62⟩, some "FEW_SEATS_AVAILABLE"⟩ : StopDetails).occupancy =
      lookupA [("V1", "FEW_SEATS_AVAILABLE")] "V1" :=
  (vehicle_id_resolution_order 100 [("V1", ⟨533, -62⟩)] [("T1", "V1")]
      [("V1", "FEW_SEATS_AVAILABLE")]
      ⟨some ⟨⟨"R1", "T1"⟩, ⟨""⟩, [⟨"S1", ⟨200⟩⟩]⟩⟩
      ⟨⟨"R1", "T1"⟩, ⟨""⟩, [⟨"S1", ⟨200⟩⟩]⟩ "R1" "S1"
      ⟨200, some ⟨533, -62⟩, some "FEW_SEATS_AVAILABLE"⟩ rfl
      (by
        show _ ∈ getNextBuses (sortTable (buildDepartureTimesRaw _ _ _ _ _)) _ _
        rw [getNextBuses_sortTable]
        exact List.mem_mergeSort.mpr (by decide))).2.1 rfl "V1" rfl

/-! ## Vehicle-index machinery for C7 and C10 -/

theorem vehicleLoop_skip (e : VehiclePB) (he : e.trip.route_id = "") :
    ∀ (xs ys : List VehiclePB) (p : PosMap) (vt : TripMap) (o : OccMap),
    vehicleLoop (xs ++ e :: ys) p vt o = vehicleLoop (xs ++ ys) p vt o := by
  intro xs
  induction xs with
  | nil =>
      intro ys p vt o
      simp [vehicleLoop, he]
  | cons x rest ih =>
      intro ys p vt o
      simp only [List.cons_append, vehicleLoop]
      by_cases hx : x.trip.route_id = ""
      · rw [if_pos hx, if_pos hx]
        exact ih ys p vt o
      · rw [if_neg hx, if_neg hx]
        cases hoc : OccupancyStatus.ofCode x.occupancy_status with
        | none => rfl
        | some status => exact ih ys _ _ _

theorem lastInServiceVehicle_cons (e : VehiclePB) (rest : List VehiclePB)
    (vid : String) :
    lastInServiceVehicle (e :: rest) vid =
      (lastInServiceVehicle rest vid).or
        (if !(e.trip.route_id == "") && (e.vehicle.id == vid) then some e
         else none) := by
  unfold lastInServiceVehicle
  rw [List.reverse_cons, List.find?_append]
  cases hpe : (!(e.trip.route_id == "") && (e.vehicle.id == vid)) with
  | true =>
      rw [if_pos rfl]
      congr 1
      exact List.find?_cons_of_pos _ hpe
  | false =>
      rw [if_neg (by simp), List.find?_cons_of_neg _ (by simp [hpe])]
      cases (rest.reverse.find?
        fun f => !(f.trip.route_id == "") && (f.vehicle.id == vid)) <;>
        simp [List.find?, Option.or]

theorem lastInServiceTrip_cons (e : VehiclePB) (rest : List VehiclePB)
    (tid : String) :
    lastInServiceTrip (e :: rest) tid =
      (lastInServiceTrip rest tid).or
        (if !(e.trip.route_id == "") && (e.trip.trip_id == tid) then some e
         else none) := by
  unfold lastInServiceTrip
  rw [List.reverse_cons, List.find?_append]
  cases hpe : (!(e.trip.route_id == "") && (e.trip.trip_id == tid)) with
  | true =>
      rw [if_pos rfl]
      congr 1
      exact List.find?_cons_of_pos _ hpe
  | false =>
      rw [if_neg (by simp), List.find?_cons_of_neg _ (by simp [hpe])]
      cases (rest.reverse.find?
        fun f => !(f.trip.route_id == "") && (f.trip.trip_id == tid)) <;>
        simp [List.find?, Option.or]

/-- Last-write-wins characterization of the three dicts built by the entity
loop of `_get_vehicle_positions`, generalized over the starting maps. -/
theorem vehicleLoop_lookup :
    ∀ (entities : List VehiclePB) (p : PosMap) (vt : TripMap) (o : OccMap)
      (pr : PosMap) (vtr : TripMap) (orr : OccMap),
    vehicleLoop entities p vt o = .ok (pr, vtr, orr) →
    (∀ vid, lookupA pr vid =
      match lastInServiceVehicle entities vid with
      | some e => some e.position
      | none => lookupA p vid) ∧
    (∀ vid, lookupA orr vid =
      match lastInServiceVehicle entities vid with
      | some e => (OccupancyStatus.ofCode e.occupancy_status).map
          OccupancyStatus.name
      | none => lookupA o vid) ∧
    (∀ tid, lookupA vtr tid =
      match lastInServiceTrip entities tid with
      | some e => some e.vehicle.id
      | none => lookupA vt tid) := by
  intro entities
  induction entities with
  | nil =>
      intro p vt o pr vtr orr h
      simp only [vehicleLoop, Except.ok.injEq, Prod.mk.injEq] at h
      obtain ⟨h1, h2, h3⟩ := h
      subst h1; subst h2; subst h3
      refine ⟨fun vid => ?_, fun vid => ?_, fun tid => ?_⟩ <;>
        simp [lastInServiceVehicle, lastInServiceTrip, List.find?]
  | cons e rest ih =>
      intro p vt o pr vtr orr h
      simp only [vehicleLoop] at h
      by_cases hroute : e.trip.route_id = ""
      · rw [if_pos hroute] at h
        obtain ⟨h1, h2, h3⟩ := ih p vt o pr vtr orr h
        have hpv : ∀ vid,
            (!(e.trip.route_id == "") && (e.vehicle.id == vid)) = false := by
          intro vid; simp [hroute]
        have hpt : ∀ tid,
            (!(e.trip.route_id == "") && (e.trip.trip_id == tid)) = false := by
          intro tid; simp [hroute]
        refine ⟨fun vid => ?_, fun vid => ?_, fun tid => ?_⟩
        · rw [h1 vid, lastInServiceVehicle_cons, hpv vid, if_neg (by simp)]
          cases lastInServiceVehicle rest vid <;> simp [Option.or]
        · rw [h2 vid, lastInServiceVehicle_cons, hpv vid, if_neg (by simp)]
          cases lastInServiceVehicle rest vid <;> simp [Option.or]
        · rw [h3 tid, lastInServiceTrip_cons, hpt tid, if_neg (by simp)]
          cases lastInServiceTrip rest tid <;> simp [Option.or]
      · rw [if_neg hroute] at h
        cases hoc : OccupancyStatus.ofCode e.occupancy_status with
        | none => rw [hoc] at h; exact absurd h (by simp)
        | some status =>
            rw [hoc] at h
            obtain ⟨h1, h2, h3⟩ := ih _ _ _ pr vtr orr h
            refine ⟨fun vid => ?_, fun vid => ?_, fun tid => ?_⟩
            · rw [h1 vid, lastInServiceVehicle_cons]
              cases hlast : lastInServiceVehicle rest vid with
              | some f => simp [Option.or]
              | none =>
                  by_cases hvid : e.vehicle.id = vid
                  · rw [if_pos (by simp [hroute, hvid])]
                    simp only [Option.or]
                    rw [← hvid]
                    exact lookupA_setA_self p e.vehicle.id e.position
                  · rw [if_neg (by simp [hvid])]
                    simp only [Option.or]
                    exact lookupA_setA_ne p e.position
                      (fun hc => hvid hc.symm)
            · rw [h2 vid, lastInServiceVehicle_cons]
              cases hlast : lastInServiceVehicle rest vid with
              | some f => simp [Option.or]
              | none =>
                  by_cases hvid : e.vehicle.id = vid
                  · rw [if_pos (by simp [hroute, hvid])]
                    simp only [Option.or]
                    rw [hoc, ← hvid]
                    simpa using lookupA_setA_self o e.vehicle.id status.name
                  · rw [if_neg (by simp [hvid])]
                    simp only [Option.or]
                    exact lookupA_setA_ne o status.name
                      (fun hc => hvid hc.symm)
            · rw [h3 tid, lastInServiceTrip_cons]
              cases hlast : lastInServiceTrip rest tid with
              | some f => simp [Option.or]
              | none =>
                  by_cases htid : e.trip.trip_id = tid
                  · rw [if_pos (by simp [hroute, htid])]
                    simp only [Option.or]
                    rw [← htid]
                    exact lookupA_setA_self vt e.trip.trip_id e.vehicle.id
                  · rw [if_neg (by simp [htid])]
                    simp only [Option.or]
                    exact lookupA_setA_ne vt e.vehicle.id
                      (fun hc => htid hc.symm)

/-- If any in-service entity of the feed carries an occupancy code outside
the enumeration, the whole entity loop raises, whatever the starting maps. -/
theorem vehicleLoop_error (e : VehiclePB) (hroute : e.trip.route_id ≠ "")
    (hcode : OccupancyStatus.ofCode e.occupancy_status = none) :
    ∀ (entities : List VehiclePB), e ∈ entities →
    ∀ (p : PosMap) (vt : TripMap) (o : OccMap),
      vehicleLoop entities p vt o = .error () := by
  intro entities
  induction entities with
  | nil => intro h; simp at h
  | cons x rest ih =>
      intro hmem p vt o
      rcases List.mem_cons.mp hmem with heq | hmem2
      · subst heq
        simp only [vehicleLoop, if_neg hroute]
        rw [hcode]
      · by_cases hx : x.trip.route_id = ""
        · simp only [vehicleLoop, if_pos hx]
          exact ih hmem2 p vt o
        · simp only [vehicleLoop, if_neg hx]
          cases hoc : OccupancyStatus.ofCode x.occupancy_status with
          | none => rfl
          | some status => exact ih hmem2 _ _ _

/-! ## C7: out-of-service vehicles are skipped, others are indexed -/

/-- C7: a vehicle entity whose trip has an empty route id contributes nothing
to any of the three maps (removing it from the feed changes nothing), while
every in-service entity of a successfully indexed feed has entries under its
vehicle id in the position and occupancy maps and under its trip id in the
trip-to-vehicle map. -/
theorem not_in_service_vehicles_skipped (e : VehiclePB)
    (entities xs ys : List VehiclePB) (p : PosMap) (vt : TripMap)
    (o : OccMap) :
    (e.trip.route_id = "" →
      getVehiclePositions (xs ++ e :: ys) = getVehiclePositions (xs ++ ys)) ∧
    (e ∈ entities → e.trip.route_id ≠ "" →
      getVehiclePositions entities = .ok (p, vt, o) →
      (lookupA p e.vehicle.id).isSome ∧ (lookupA o e.vehicle.id).isSome ∧
      (lookupA vt e.trip.trip_id).isSome) := by
  constructor
  · intro he
    exact vehicleLoop_skip e he xs ys [] [] []
  · intro hmem hroute h
    obtain ⟨h1, h2, h3⟩ := vehicleLoop_lookup entities [] [] [] p vt o h
    have hfv : (lastInServiceVehicle entities e.vehicle.id).isSome := by
      unfold lastInServiceVehicle
      rw [List.find?_isSome]
      exact ⟨e, List.mem_reverse.mpr hmem, by simp [hroute]⟩
    have hft : (lastInServiceTrip entities e.trip.trip_id).isSome := by
      unfold lastInServiceTrip
      rw [List.find?_isSome]
      exact ⟨e, List.mem_reverse.mpr hmem, by simp [hroute]⟩
    obtain ⟨f1, hf1⟩ := Option.isSome_iff_exists.mp hfv
    obtain ⟨f2, hf2⟩ := Option.isSome_iff_exists.mp hft
    refine ⟨?_, ?_, ?_⟩
    · rw [h1 e.vehicle.id, hf1]; rfl
    · rw [h2 e.vehicle.id, hf1]
      -- the last in-service entity for this id was indexed, so its
      -- occupancy code decoded successfully
      have : f1 ∈ entities ∧
          (!(f1.trip.route_id == "") && (f1.vehicle.id == e.vehicle.id))
            = true := by
        have := List.find?_some hf1
        have hm := List.mem_of_find?_eq_some hf1
        exact ⟨List.mem_reverse.mp hm, this⟩
      rcases hocc : OccupancyStatus.ofCode f1.occupancy_status with _ | st
      · -- impossible: the loop would have errored on f1
        exfalso
        have herr := vehicleLoop_error f1
          (by
            rcases this with ⟨_, hb⟩
            simp only [Bool.and_eq_true, Bool.not_eq_true', beq_eq_false_iff_ne]
              at hb
            exact hb.1)
          hocc entities this.1 [] [] []
        rw [getVehiclePositions] at h
        rw [herr] at h
        exact absurd h (by simp)
      · simp [hocc]
    · rw [h3 e.trip.trip_id, hf2]; rfl

/-- Witness for C7: an out-of-service entity (empty route id) leaves the maps
untouched, and an in-service entity is indexed under its ids. -/
theorem not_in_service_vehicles_skipped_witness :
    getVehiclePositions [⟨⟨"", "T2"⟩, ⟨"V2"⟩, ⟨1, 1⟩, 1⟩] =
      getVehiclePositions [] ∧
    ((lookupA [("V1", (⟨1, 2⟩ : Position))] "V1").isSome ∧
      (lookupA [("V1", "EMPTY")] "V1").isSome ∧
      (lookupA [("T1", "V1")] "T1").isSome) :=
  ⟨(not_in_service_vehicles_skipped ⟨⟨"", "T2"⟩, ⟨"V2"⟩, ⟨1, 1⟩, 1⟩ [] [] []
      [] [] []).1 rfl,
   (not_in_service_vehicles_skipped ⟨⟨"R1", "T1"⟩, ⟨"V1"⟩, ⟨1, 2⟩, 0⟩
      [⟨⟨"R1", "T1"⟩, ⟨"V1"⟩, ⟨1, 2⟩, 0⟩] [] [] [("V1", ⟨1, 2⟩)]
      [("T1", "V1")] [("V1", "EMPTY")]).2 (by decide) (by decide) rfl⟩

/-! ## C10: duplicate ids, last entity in feed order wins -/

/-- C10: when the vehicle feed holds several in-service entities with the
same vehicle id (or trip id), the maps record the position/occupancy (or
vehicle id) of the last such entity in feed order. -/
theorem duplicate_vehicle_last_wins (entities : List VehiclePB) (p : PosMap)
    (vt : TripMap) (o : OccMap)
    (h : getVehiclePositions entities = .ok (p, vt, o)) :
    (∀ vid, lookupA p vid =
      (lastInServiceVehicle entities vid).map (fun e => e.position)) ∧
    (∀ vid, lookupA o vid =
      (lastInServiceVehicle entities vid).bind
        (fun e => (OccupancyStatus.ofCode e.occupancy_status).map
          OccupancyStatus.name)) ∧
    (∀ tid, lookupA vt tid =
      (lastInServiceTrip entities tid).map (fun e => e.vehicle.id)) := by
  obtain ⟨h1, h2, h3⟩ := vehicleLoop_lookup entities [] [] [] p vt o h
  refine ⟨fun vid => ?_, fun vid => ?_, fun tid => ?_⟩
  · rw [h1 vid]
    cases lastInServiceVehicle entities vid <;> simp [lookupA]
  · rw [h2 vid]
    cases lastInServiceVehicle entities vid <;> simp [lookupA]
  · rw [h3 tid]
    cases lastInServiceTrip entities tid <;> simp [lookupA]

/-- Witness for C10: two in-service entities share vehicle id V1 (and trip id
T1); lookups return the second (last) entity's position, occupancy and
vehicle link. -/
theorem duplicate_vehicle_last_wins_witness :
    lookupA [("V1", (⟨500, -60⟩ : Position))] "V1" =
      (lastInServiceVehicle
        [⟨⟨"R1", "T1"⟩, ⟨"V1"⟩, ⟨533, -62⟩, 2⟩,
         ⟨⟨"R1", "T1"⟩, ⟨"V1"⟩, ⟨500, -60⟩, 3⟩] "V1").map
        (fun e => e.position) :=
  (duplicate_vehicle_last_wins
      [⟨⟨"R1", "T1"⟩, ⟨"V1"⟩, ⟨533, -62⟩, 2⟩,
       ⟨⟨"R1", "T1"⟩, ⟨"V1"⟩, ⟨500, -60⟩, 3⟩]
      [("V1", ⟨500, -60⟩)] [("T1", "V1")]
      [("V1", "STANDING_ROOM_ONLY")] rfl).1 "V1"

/-! ## C1: behaviour on non-2xx trip-update responses -/

/-- C1 counterexample: an HTTP 500 response whose (empty) body still parses
as an empty feed message replaces the stored table with a fresh empty one, so
`get()` afterwards no longer returns its pre-refresh results. -/
theorem non2xx_response_can_replace_table :
    (⟨500, some []⟩ : FetchResponse FeedEntityT).status_code ≠ 200 ∧
    updateRouteStatuses ⟨500, some []⟩ [] [] [] 0
        [("R1", [("S1", [⟨100, none, none⟩])])] = [] ∧
    getNextBuses
        (updateRouteStatuses ⟨500, some []⟩ [] [] [] 0
          [("R1", [("S1", [⟨100, none, none⟩])])]) "R1" "S1" ≠
      getNextBuses [("R1", [("S1", [⟨100, none, none⟩])])] "R1" "S1" :=
  ⟨by decide, rfl, by decide⟩

/-- C1 amended: a non-2xx status is only logged and the body is still parsed;
the previous table is retained exactly when parsing the body raises, and when
the body parses as a feed message the table built from it replaces the
previous one regardless of the status code. -/
theorem table_retained_only_on_parse_failure
    (response : FetchResponse FeedEntityT)
    (vehicle_response : FetchResponse VehiclePB)
    (vehicle_position_url : Bool) (p : PosMap) (vt : TripMap) (o : OccMap)
    (now : Int) (info : Table) (entities : List FeedEntityT) :
    (response.parsed = none →
      updateRouteStatuses response p vt o now info = info) ∧
    (response.parsed = none →
      updateBody info vehicle_position_url vehicle_response response now =
        info) ∧
    (response.parsed = some entities →
      updateRouteStatuses response p vt o now info =
        updateRouteStatusesTable now p vt o entities) := by
  refine ⟨fun h => by simp [updateRouteStatuses, h], fun h => ?_,
    fun h => by simp [updateRouteStatuses, h]⟩
  unfold updateBody
  cases vehicle_position_url with
  | false => simp [updateRouteStatuses, h]
  | true =>
      simp only [if_pos rfl]
      cases hv : vehicle_response.parsed with
      | none => simp
      | some ventities =>
          cases hg : getVehiclePositions ventities with
          | error u => simp [hg]
          | ok maps =>
              obtain ⟨p2, vt2, o2⟩ := maps
              simp [hg, updateRouteStatuses, h]

/-- Witness for the C1 amended theorem: a transport/parse failure retains the
stored table, and a parsed body installs the freshly built table. -/
theorem table_retained_only_on_parse_failure_witness :
    updateRouteStatuses ⟨500, none⟩ [] [] [] 0
        [("R1", [("S1", [⟨100, none, none⟩])])] =
      [("R1", [("S1", [⟨100, none, none⟩])])] ∧
    updateBody [("R1", [("S1", [⟨100, none, none⟩])])] false ⟨200, none⟩
        ⟨500, none⟩ 0 =
      [("R1", [("S1", [⟨100, none, none⟩])])] ∧
    updateRouteStatuses ⟨500, some []⟩ [] [] [] 0
        [("R1", [("S1", [⟨100, none, none⟩])])] =
      updateRouteStatusesTable 0 [] [] [] [] :=
  ⟨(table_retained_only_on_parse_failure ⟨500, none⟩ ⟨200, none⟩ false [] []
      [] 0 [("R1", [("S1", [⟨100, none, none⟩])])] []).1 rfl,
   (table_retained_only_on_parse_failure ⟨500, none⟩ ⟨200, none⟩ false [] []
      [] 0 [("R1", [("S1", [⟨100, none, none⟩])])] []).2.1 rfl,
   (table_retained_only_on_parse_failure ⟨500, some []⟩ ⟨200, none⟩ false []
      [] [] 0 [("R1", [("S1", [⟨100, none, none⟩])])] []).2.2 rfl⟩

/-! ## C2: out-of-range occupancy codes -/

/-- C2 counterexample: a vehicle entity with occupancy code 99 is not
skipped: the vehicle pass raises, and a refresh carrying it installs no new
table even though the trip-update feed holds a valid future arrival — while
the same refresh without that entity does install one. -/
theorem invalid_occupancy_not_skipped :
    getVehiclePositions [⟨⟨"R1", "T1"⟩, ⟨"V1"⟩, ⟨0, 0⟩, 99⟩] = .error () ∧
    updateBody [] true ⟨200, some [⟨⟨"R1", "T1"⟩, ⟨"V1"⟩, ⟨0, 0⟩, 99⟩]⟩
        ⟨200, some [⟨some ⟨⟨"R1", "T1"⟩, ⟨""⟩, [⟨"S1", ⟨100⟩⟩]⟩⟩]⟩ 0 = [] ∧
    getNextBuses
        (updateBody [] true ⟨200, some []⟩
          ⟨200, some [⟨some ⟨⟨"R1", "T1"⟩, ⟨""⟩, [⟨"S1", ⟨100⟩⟩]⟩⟩]⟩ 0)
        "R1" "S1" = [⟨100, none, none⟩] := by
  refine ⟨rfl, rfl, ?_⟩
  show getNextBuses (sortTable (buildDepartureTimesRaw _ _ _ _ _)) _ _ = _
  rw [getNextBuses_sortTable]
  show ([⟨100, none, none⟩] : List StopDetails).mergeSort arrivalLe = _
  rw [List.mergeSort_singleton]

/-- C2 amended: an in-service vehicle entity with an out-of-range occupancy
code is not skipped — decoding it raises, the whole vehicle-position pass
fails, and the refresh aborts leaving the previous table in place. -/
theorem invalid_occupancy_aborts_refresh (entities : List VehiclePB)
    (e : VehiclePB) (hmem : e ∈ entities) (hroute : e.trip.route_id ≠ "")
    (hcode : OccupancyStatus.ofCode e.occupancy_status = none) :
    getVehiclePositions entities = .error () ∧
    ∀ (info : Table) (vehicle_response : FetchResponse VehiclePB)
      (trip_response : FetchResponse FeedEntityT) (now : Int),
      vehicle_response.parsed = some entities →
      updateBody info true vehicle_response trip_response now = info := by
  have herr : getVehiclePositions entities = .error () :=
    vehicleLoop_error e hroute hcode entities hmem [] [] []
  refine ⟨herr, fun info vehicle_response trip_response now hv => ?_⟩
  unfold updateBody
  rw [if_pos rfl, hv]
  simp [herr]

/-- Witness for the C2 amended theorem: a refresh whose vehicle feed holds an
entity with occupancy code 99 leaves the stored table untouched. -/
theorem invalid_occupancy_aborts_refresh_witness :
    updateBody [("R0", [("S0", [⟨5, none, none⟩])])] true
        ⟨200, some [⟨⟨"R1", "T1"⟩, ⟨"V1"⟩, ⟨0, 0⟩, 99⟩]⟩ ⟨200, some []⟩ 7 =
      [("R0", [("S0", [⟨5, none, none⟩])])] :=
  (invalid_occupancy_aborts_refresh [⟨⟨"R1", "T1"⟩, ⟨"V1"⟩, ⟨0, 0⟩, 99⟩]
      ⟨⟨"R1", "T1"⟩, ⟨"V1"⟩, ⟨0, 0⟩, 99⟩ (by decide) (by decide) rfl).2
    [("R0", [("S0", [⟨5, none, none⟩])])]
    ⟨200, some [⟨⟨"R1", "T1"⟩, ⟨"V1"⟩, ⟨0, 0⟩, 99⟩]⟩ ⟨200, some []⟩ 7 rfl

/-! ## C6: rate limiting (throttle modelled from the spec) -/

/-- C6: a second `update()` call within `MIN_TIME_BETWEEN_UPDATES` seconds of
a previous call performs no network fetch and leaves the stored table
unchanged: the observable state (table and fetch counter) after two calls
within the interval equals the state after one. -/
theorem second_update_within_interval_noop (st : PTState) (now1 now2 : Int)
    (vurl1 vurl2 : Bool) (vr1 vr2 : FetchResponse VehiclePB)
    (tr1 tr2 : FetchResponse FeedEntityT)
    (h : now2 - now1 < MIN_TIME_BETWEEN_UPDATES) :
    (throttledUpdate (throttledUpdate st now1 vurl1 vr1 tr1) now2 vurl2 vr2
        tr2).info =
      (throttledUpdate st now1 vurl1 vr1 tr1).info ∧
    (throttledUpdate (throttledUpdate st now1 vurl1 vr1 tr1) now2 vurl2 vr2
        tr2).fetch_count =
      (throttledUpdate st now1 vurl1 vr1 tr1).fetch_count := by
  have hla : (throttledUpdate st now1 vurl1 vr1 tr1).last_attempt =
      some now1 := by
    unfold throttledUpdate
    cases hl : st.last_attempt with
    | none => rfl
    | some t => by_cases ht : now1 - t < MIN_TIME_BETWEEN_UPDATES <;>
        simp [ht]
  rcases hst1 : throttledUpdate st now1 vurl1 vr1 tr1 with ⟨info1, la1, fc1⟩
  rw [hst1] at hla
  simp only at hla
  subst hla
  simp [throttledUpdate, h]

/-- Witness for C6: a call at t=30, 30 seconds after a call at t=0, changes
neither the table nor the fetch counter. -/
theorem second_update_within_interval_noop_witness :
    (throttledUpdate
        (throttledUpdate ⟨[], none, 0⟩ 0 false ⟨200, none⟩ ⟨200, some []⟩) 30
        false ⟨200, none⟩ ⟨200, some []⟩).info =
      (throttledUpdate ⟨[], none, 0⟩ 0 false ⟨200, none⟩ ⟨200, some []⟩).info ∧
    (throttledUpdate
        (throttledUpdate ⟨[], none, 0⟩ 0 false ⟨200, none⟩ ⟨200, some []⟩) 30
        false ⟨200, none⟩ ⟨200, some []⟩).fetch_count =
      (throttledUpdate ⟨[], none, 0⟩ 0 false ⟨200, none⟩
        ⟨200, some []⟩).fetch_count :=
  second_update_within_interval_noop ⟨[], none, 0⟩ 0 30 false false
    ⟨200, none⟩ ⟨200, none⟩ ⟨200, some []⟩ ⟨200, some []⟩ (by decide)

/-! ## C8: minutes-until-arrival arithmetic -/

/-- C8 counterexample: for an arrival 90 seconds in the past, the state shows
-1 (truncation toward zero) where the floor of elapsed-seconds/60 is -2. -/
theorem due_in_minutes_not_floor :
    sensorState [("R1", [("S1", [⟨10, none, none⟩])])] "R1" "S1" 100 =
      some (-1) ∧
    Int.fdiv (10 - 100) 60 = -2 ∧
    sensorState [("R1", [("S1", [⟨10, none, none⟩])])] "R1" "S1" 100 ≠
      some (Int.fdiv (10 - 100) 60) :=
  ⟨rfl, by decide, by decide⟩

/-- C8 amended: `due_in_minutes` is the integer quotient of elapsed seconds
by 60 truncated toward zero; it agrees with the floor whenever the arrival is
not earlier than the query time. The state is the placeholder sentinel when
the stop's arrival list is empty, and otherwise `due_in_minutes` of the first
entry. -/
theorem due_in_minutes_truncation (timestamp now : Int) (info : Table)
    (route stop : String) (b : StopDetails) (rest : List StopDetails) :
    (now ≤ timestamp →
      due_in_minutes timestamp now = Int.fdiv (timestamp - now) 60) ∧
    (getNextBuses info route stop = [] →
      sensorState info route stop now = none) ∧
    (getNextBuses info route stop = b :: rest →
      sensorState info route stop now =
        some (due_in_minutes b.arrival_time now)) := by
  refine ⟨fun h => ?_, fun h => by simp [sensorState, h],
    fun h => by simp [sensorState, h]⟩
  unfold due_in_minutes
  rw [Int.tdiv_eq_ediv (by omega) (by decide), Int.fdiv_eq_ediv _ (by decide)]

/-- Witness for the C8 amended theorem: a future arrival (t=200, now=100)
gives floor minutes, and an empty stop list gives the sentinel. -/
theorem due_in_minutes_truncation_witness :
    due_in_minutes 200 100 = Int.fdiv (200 - 100) 60 ∧
    sensorState [] "R1" "S1" 100 = none :=
  ⟨(due_in_minutes_truncation 200 100 [] "R1" "S1" ⟨0, none, none⟩ []).1
      (by decide),
   (due_in_minutes_truncation 200 100 [] "R1" "S1" ⟨0, none, none⟩ []).2.1
      rfl⟩

/-! ## C9: authentication header precedence -/

/-- C9: with several authentication keys supplied, `api_key` (sent as
`Authorization`) wins over `apikey` (sent as `apikey`), which wins over
`x_api_key` (sent as `x-api-key`); with none supplied no headers are sent,
and at most one header is ever used per instance. -/
theorem auth_header_precedence (api_key x_api_key apikey : Option String)
    (k : String) (hs : List (String × String)) :
    (initHeaders (some k) x_api_key apikey = some [("Authorization", k)]) ∧
    (initHeaders none x_api_key (some k) = some [("apikey", k)]) ∧
    (initHeaders none (some k) none = some [("x-api-key", k)]) ∧
    (initHeaders none none none = none) ∧
    (initHeaders api_key x_api_key apikey = some hs → hs.length = 1) := by
  refine ⟨rfl, rfl, rfl, rfl, ?_⟩
  unfold initHeaders
  cases api_key with
  | some a => intro h; injection h with h2; subst h2; rfl
  | none =>
      cases apikey with
      | some a => intro h; injection h with h2; subst h2; rfl
      | none =>
          cases x_api_key with
          | some a => intro h; injection h with h2; subst h2; rfl
          | none => intro h; exact Option.noConfusion h

/-- Witness for C9: with all three keys supplied, only the `Authorization`
header is set, and the header list has length one. -/
theorem auth_header_precedence_witness :
    initHeaders (some "K1") (some "K3") (some "K2") =
      some [("Authorization", "K1")] ∧
    ([("Authorization", "K1")] : List (String × String)).length = 1 :=
  ⟨(auth_header_precedence (some "K1") (some "K3") (some "K2") "K1" []).1,
   (auth_header_precedence (some "K1") (some "K3") (some "K2") "K1"
      [("Authorization", "K1")]).2.2.2.2 rfl⟩
